import Mathlib

/-!
Shallow embedding of the invoice server actions in `app/lib/actions.ts`
of the nextjs-dashboard repository. The file contains two versions of
the actions: a lenient one (`safeParse`, structured field errors,
try/catch around every SQL statement) and a legacy strict one
(`parse`, which throws on invalid input, and no try/catch around its
insert statement).

Modelling conventions:

* JavaScript numbers are modelled as exact rationals (`ℚ`) together
  with a `nan` value. `z.coerce.number()` applies JavaScript `Number()`
  to the raw field, so a `RawForm` carries the amount field already
  coerced: a missing field (`null`) coerces to `fin 0`, a non-numeric
  string to `nan`. IEEE-754 rounding of doubles is idealised to exact
  rational arithmetic; the facts proved below about `amount * 100`
  (notably that the code applies no rounding step to it) hold a
  fortiori for the floating-point computation, which only drifts
  further from the rounded value.

* Effects are recorded in program order as an `Event` list: the SQL
  statement handed to the database collaborator, `console.log` /
  `console.error` calls, and `revalidatePath`. How a call ends is a
  `CallResult`: a normal return with a value, a redirect (Next.js
  `redirect` hands control to the navigation collaborator and does not
  return to the caller), or a propagated exception.

* The single database statement of each operation either succeeds or
  throws; `DbOutcome` is that external outcome and is passed to each
  operation as a parameter.

* zod v3 semantics for the combinators the schemas use: the
  `invalid_type_error` parameter only replaces the message of
  `invalid_type` issues (raised when the raw value has the wrong
  type, e.g. `null` where a string is expected); a string that is not
  among a `z.enum`'s values raises an `invalid_enum_value` issue,
  which keeps zod's default message. `.gt(0, msg)` raises a
  `too_small` issue carrying the custom message. A coerced `NaN` fails
  `z.number()` with the default invalid-type message. `safeParse` on
  an object collects the issues of every field.
-/

/-- A JavaScript number as produced by `Number()` coercion: either `NaN`
or a finite value, modelled as an exact rational. -/
inductive JSNum where
  | nan : JSNum
  | fin (q : ℚ) : JSNum
deriving DecidableEq

/-- The raw form input read by the actions: `formData.get` yields a
string or `null` for `customerId` and `status`; the amount field is
carried already coerced by JavaScript `Number()` (see the module
docstring). -/
structure RawForm where
  customerId : Option String
  amount : JSNum
  status : Option String
deriving DecidableEq

/-- The status enumeration `z.enum(['pending', 'paid'])`. -/
inductive InvoiceStatus where
  | pending : InvoiceStatus
  | paid : InvoiceStatus
deriving DecidableEq

/-- The string a status renders to when interpolated into SQL. -/
def InvoiceStatus.toStr : InvoiceStatus → String
  | .pending => "pending"
  | .paid => "paid"

/-- The per-field error lists of `error.flatten().fieldErrors` (a field
that validated has the empty list; zod omits such keys, which carries
the same information). -/
structure FieldErrors where
  customerId : List String
  amount : List String
  status : List String
deriving DecidableEq

/-- The typed record produced by a successful lenient parse (schema
`CreateInvoice = UpdateInvoice = FormSchema.omit id date`). -/
structure ValidatedInvoice where
  customerId : String
  amount : ℚ
  status : InvoiceStatus
deriving DecidableEq

/-- Custom message of `z.string({ invalid_type_error })` for customerId. -/
def customerIdTypeMsg : String := "Please select a customer."

/-- Custom message of `.gt(0, ...)` on the amount field. -/
def amountGtMsg : String := "Please enter an amount greater than $0."

/-- Custom message of `z.enum(..., { invalid_type_error })` for status. -/
def statusTypeMsg : String := "Please select an invoice status."

/-- zod's default invalid-type message for a coerced `NaN` amount. -/
def amountNanMsg : String := "Expected number, received nan"

/-- zod's default invalid-type message for a `null` customerId (strict
schema, no custom message). -/
def stringTypeDefaultMsg : String := "Expected string, received null"

/-- zod's default invalid-type message for a `null` status (strict
schema, no custom message). -/
def enumTypeDefaultMsg : String := "Expected 'pending' | 'paid', received null"

/-- zod's default invalid-enum-value message, raised for any string
outside the enum's values, with or without `invalid_type_error`. -/
def enumValueDefaultMsg (received : String) : String :=
  "Invalid enum value. Expected 'pending' | 'paid', received '" ++ received ++ "'"

/-- Lenient check of customerId: `z.string({ invalid_type_error: 'Please
select a customer.' })` applied to a string-or-null raw value. -/
def checkCustomerId : Option String → Except (List String) String
  | none => .error [customerIdTypeMsg]
  | some s => .ok s

/-- Lenient check of amount: `z.coerce.number().gt(0, ...)` applied to
the coerced value. -/
def checkAmountLenient : JSNum → Except (List String) ℚ
  | .nan => .error [amountNanMsg]
  | .fin q => if 0 < q then .ok q else .error [amountGtMsg]

/-- Check of status, shared shape of both schemas: `null` is an
invalid-type issue (message `typeMsg`, custom in the lenient schema and
default in the strict one); a string outside the enum is an
invalid-enum-value issue with zod's default message. -/
def checkStatusWith (typeMsg : String) : Option String → Except (List String) InvoiceStatus
  | none => .error [typeMsg]
  | some s =>
    if s = "pending" then .ok InvoiceStatus.pending
    else if s = "paid" then .ok InvoiceStatus.paid
    else .error [enumValueDefaultMsg s]

/-- The error lists of a field result (empty when the field validated). -/
def errsOf {α : Type} : Except (List String) α → List String
  | .error e => e
  | .ok _ => []

/-- `CreateInvoice.safeParse` / `UpdateInvoice.safeParse`: validates all
three fields, collecting every failing field's messages. -/
def lenientParse (f : RawForm) : Except FieldErrors ValidatedInvoice :=
  match checkCustomerId f.customerId, checkAmountLenient f.amount,
        checkStatusWith statusTypeMsg f.status with
  | .ok c, .ok a, .ok s => .ok ⟨c, a, s⟩
  | rc, ra, rs => .error ⟨errsOf rc, errsOf ra, errsOf rs⟩

/-- Strict check of customerId: `z.string()` with no custom message. -/
def checkCustomerIdStrict : Option String → Except (List String) String
  | none => .error [stringTypeDefaultMsg]
  | some s => .ok s

/-- Strict check of amount: `z.coerce.number()` with no further
constraint — any finite number passes, including zero and negatives. -/
def checkAmountStrict : JSNum → Except (List String) ℚ
  | .nan => .error [amountNanMsg]
  | .fin q => .ok q

/-- `CreateInvoice.parse`'s validation (strict schema: no custom
messages, no `.gt(0)` on amount). -/
def strictParse (f : RawForm) : Except FieldErrors ValidatedInvoice :=
  match checkCustomerIdStrict f.customerId, checkAmountStrict f.amount,
        checkStatusWith enumTypeDefaultMsg f.status with
  | .ok c, .ok a, .ok s => .ok ⟨c, a, s⟩
  | rc, ra, rs => .error ⟨errsOf rc, errsOf ra, errsOf rs⟩

/-- The parameterized SQL statements the three operations issue. The
update statement's SET clause carries exactly the columns customer_id,
amount and status — it has no date component, mirroring the SQL text. -/
inductive SqlStmt where
  | insertRow (customerId : String) (amountCents : ℚ) (status : InvoiceStatus) (date : String) : SqlStmt
  | updateRow (id : String) (customerId : String) (amountCents : ℚ) (status : InvoiceStatus) : SqlStmt
  | deleteRow (id : String) : SqlStmt
deriving DecidableEq

/-- One observable effect, in program order. -/
inductive Event where
  | logDebug (msg : String) : Event
  | dbStatement (stmt : SqlStmt) : Event
  | logError (msg : String) : Event
  | revalidate (path : String) : Event
deriving DecidableEq

/-- Whether the single SQL statement of an invocation succeeds or
throws (the database collaborator's outcome, external to the code). -/
inductive DbOutcome where
  | ok : DbOutcome
  | fail : DbOutcome
deriving DecidableEq

/-- The exceptions that can cross an action's boundary. -/
inductive JsError where
  | zodError (errors : FieldErrors) : JsError
  | dbError : JsError
deriving DecidableEq

/-- How a call ends: normal return, redirect (control handed to the
navigation collaborator, never returned), or a propagated exception. -/
inductive CallResult (α : Type) where
  | returned (a : α) : CallResult α
  | redirected (path : String) : CallResult α
  | threw (e : JsError) : CallResult α
deriving DecidableEq

/-- Whether a call ended by propagating an exception. -/
def CallResult.isThrow {α : Type} : CallResult α → Bool
  | .threw _ => true
  | _ => false

/-- The `State` value the lenient actions return on validation failure. -/
structure State where
  errors : Option FieldErrors
  message : Option String
deriving DecidableEq

/-- The path passed to both `revalidatePath` and `redirect`. -/
def invoicesPath : String := "/dashboard/invoices"

/-- Lenient `createInvoice(prevState, formData)`. `today` is the value
of `new Date().toISOString().split('T')[0]` at the time of the call.
Mirrors the source line by line: `console.log` of the parse result,
early return of `State` on validation failure, `amountInCents =
amount * 100`, the insert inside try/catch (a failure is logged and
swallowed), then `revalidatePath` and `redirect` unconditionally. -/
def createInvoice (f : RawForm) (today : String) (db : DbOutcome) :
    List Event × CallResult State :=
  let debug := [Event.logDebug "validatedFields: "]
  match lenientParse f with
  | .error e =>
    (debug, .returned ⟨some e, some "Missing Fields. Failed to Create Invoice."⟩)
  | .ok v =>
    let amountInCents := v.amount * 100
    let stmt := SqlStmt.insertRow v.customerId amountInCents v.status today
    let tryEvents :=
      match db with
      | .ok => [Event.dbStatement stmt]
      | .fail => [Event.dbStatement stmt,
                  Event.logError "Database Error: Failed to Create Invoice."]
    (debug ++ tryEvents ++ [Event.revalidate invoicesPath], .redirected invoicesPath)

/-- Lenient `updateInvoice(id, preState, formData)`: same pipeline as
`createInvoice` but issuing the update statement (no date computed, no
`console.log`), with the corresponding messages. -/
def updateInvoice (id : String) (f : RawForm) (db : DbOutcome) :
    List Event × CallResult State :=
  match lenientParse f with
  | .error e =>
    ([], .returned ⟨some e, some "Missing Fields. Failed to Update Invoice."⟩)
  | .ok v =>
    let amountInCents := v.amount * 100
    let stmt := SqlStmt.updateRow id v.customerId amountInCents v.status
    let tryEvents :=
      match db with
      | .ok => [Event.dbStatement stmt]
      | .fail => [Event.dbStatement stmt,
                  Event.logError "Database Error: Failed to Update Invoice."]
    (tryEvents ++ [Event.revalidate invoicesPath], .redirected invoicesPath)

/-- `deleteInvoice(id)`: the delete statement and `revalidatePath` are
both inside the try block, so on failure the error is logged and
invalidation is skipped; the function returns normally either way and
never redirects. -/
def deleteInvoice (id : String) (db : DbOutcome) :
    List Event × CallResult Unit :=
  match db with
  | .ok =>
    ([Event.dbStatement (SqlStmt.deleteRow id), Event.revalidate invoicesPath],
     .returned ())
  | .fail =>
    ([Event.dbStatement (SqlStmt.deleteRow id),
      Event.logError "Database Error: Failed to Delete Invoice."],
     .returned ())

/-- Legacy strict `createInvoice(formData)`: `CreateInvoice.parse`
throws a ZodError on invalid input; the insert statement has no
try/catch, so a database failure propagates to the caller before
`revalidatePath` and `redirect` are reached. -/
def createInvoiceStrict (f : RawForm) (today : String) (db : DbOutcome) :
    List Event × CallResult Unit :=
  match strictParse f with
  | .error e => ([], .threw (.zodError e))
  | .ok v =>
    let amountInCents := v.amount * 100
    let stmt := SqlStmt.insertRow v.customerId amountInCents v.status today
    match db with
    | .fail => ([Event.dbStatement stmt], .threw .dbError)
    | .ok => ([Event.dbStatement stmt, Event.revalidate invoicesPath],
              .redirected invoicesPath)

/-- A row of the `invoices` table. -/
structure InvoiceRow where
  id : String
  customerId : String
  amountCents : ℚ
  status : InvoiceStatus
  date : String
deriving DecidableEq

/-- Effect of `UPDATE invoices SET customer_id = c, amount = a,
status = s WHERE id = i` on one row: the three SET columns are
overwritten on the matching row, every other column (in particular
date) is untouched. -/
def applyUpdateRow (i c : String) (a : ℚ) (s : InvoiceStatus) (row : InvoiceRow) :
    InvoiceRow :=
  if row.id = i then { row with customerId := c, amountCents := a, status := s }
  else row

/-- Whether an event is a statement handed to the database. -/
def Event.isDbStatement : Event → Bool
  | .dbStatement _ => true
  | _ => false

/-- Half-up rounding to integer cents, as the specification's examples
prescribe (19.999 → 2000): the integer nearest to `q * 100`, ties going
up. This definition follows the specification's words, for comparison
with what the code computes. -/
def specRoundHalfUpCents (q : ℚ) : ℤ := ⌊q * 100 + 1 / 2⌋

/-- A lenient parse succeeds exactly when all three field checks do, and
then carries their values. -/
theorem lenientParse_ok_iff {f : RawForm} {v : ValidatedInvoice} :
    lenientParse f = .ok v ↔
      checkCustomerId f.customerId = .ok v.customerId ∧
      checkAmountLenient f.amount = .ok v.amount ∧
      checkStatusWith statusTypeMsg f.status = .ok v.status := by
  obtain ⟨vc, va, vs⟩ := v
  cases hc : checkCustomerId f.customerId <;>
    cases ha : checkAmountLenient f.amount <;>
    cases hs : checkStatusWith statusTypeMsg f.status <;>
    simp [lenientParse, hc, ha, hs, and_assoc, eq_comm]

/-- An amount that passes the lenient check is strictly positive. -/
theorem checkAmountLenient_ok_pos {a : JSNum} {q : ℚ}
    (h : checkAmountLenient a = .ok q) : 0 < q := by
  cases a with
  | nan => simp [checkAmountLenient] at h
  | fin r =>
    by_cases hr : 0 < r
    · simp [checkAmountLenient, hr] at h
      exact h ▸ hr
    · simp [checkAmountLenient, hr] at h

/-- A validated invoice's amount is strictly positive. -/
theorem lenientParse_ok_amount_pos {f : RawForm} {v : ValidatedInvoice}
    (h : lenientParse f = .ok v) : 0 < v.amount :=
  checkAmountLenient_ok_pos (lenientParse_ok_iff.mp h).2.1

/-- If the amount check fails, the whole lenient parse fails and reports
the amount messages (alongside whatever the other fields report). -/
theorem lenientParse_error_of_amount {f : RawForm} {msgs : List String}
    (h : checkAmountLenient f.amount = .error msgs) :
    lenientParse f = .error ⟨errsOf (checkCustomerId f.customerId), msgs,
      errsOf (checkStatusWith statusTypeMsg f.status)⟩ := by
  cases hc : checkCustomerId f.customerId <;>
    cases hs : checkStatusWith statusTypeMsg f.status <;>
    simp [lenientParse, hc, h, hs, errsOf]

/-- If the status check fails, the whole lenient parse fails and reports
the status messages (alongside whatever the other fields report). -/
theorem lenientParse_error_of_status {f : RawForm} {msgs : List String}
    (h : checkStatusWith statusTypeMsg f.status = .error msgs) :
    lenientParse f = .error ⟨errsOf (checkCustomerId f.customerId),
      errsOf (checkAmountLenient f.amount), msgs⟩ := by
  cases hc : checkCustomerId f.customerId <;>
    cases ha : checkAmountLenient f.amount <;>
    simp [lenientParse, hc, ha, h, errsOf]

/-- C1 counterexample: the claim says the normalizer computes
amountCents = round(amount × 100) (half-up), giving 19.999 → 2000. At
the validated amount 19.999 the insert statement issued by
`createInvoice` carries amountInCents = 1999.9, while the claimed
rounding yields 2000 ≠ 1999.9 — the code multiplies by 100 and never
rounds. -/
theorem c1_counterexample :
    (createInvoice ⟨some "c1", JSNum.fin (19999 / 1000), some "pending"⟩
        "2026-10-11" DbOutcome.ok).1 =
      [Event.logDebug "validatedFields: ",
       Event.dbStatement
         (SqlStmt.insertRow "c1" (19999 / 10) InvoiceStatus.pending "2026-10-11"),
       Event.revalidate invoicesPath] ∧
    specRoundHalfUpCents (19999 / 1000) = 2000 ∧
    ((19999 : ℚ) / 10) ≠ ((2000 : ℤ) : ℚ) := by
  refine ⟨?_, ?_, ?_⟩
  · simp [createInvoice, lenientParse, checkCustomerId, checkAmountLenient,
      checkStatusWith]
    norm_num
  · unfold specRoundHalfUpCents
    norm_num
  · norm_num

/-- C1 (amended): for every validated invoice, both `createInvoice` and
`updateInvoice` hand the database a statement whose amountCents is
exactly amount × 100, with no rounding step applied (so 12.50 → 1250,
but 19.999 → 1999.9, not 2000). -/
theorem c1_amount_times_hundred (f : RawForm) (uid today : String)
    (db : DbOutcome) (v : ValidatedInvoice) (h : lenientParse f = .ok v) :
    Event.dbStatement (SqlStmt.insertRow v.customerId (v.amount * 100) v.status today)
        ∈ (createInvoice f today db).1 ∧
    Event.dbStatement (SqlStmt.updateRow uid v.customerId (v.amount * 100) v.status)
        ∈ (updateInvoice uid f db).1 := by
  cases db <;> simp [createInvoice, updateInvoice, h]

/-- C1 witness: at the concrete form (customer c1, amount 12.50, status
pending) the insert statement carries 1250 cents. -/
theorem c1_witness :
    Event.dbStatement (SqlStmt.insertRow "c1" 1250 InvoiceStatus.pending "2026-10-11")
      ∈ (createInvoice ⟨some "c1", JSNum.fin (25 / 2), some "pending"⟩
          "2026-10-11" DbOutcome.ok).1 := by
  have h := c1_amount_times_hundred ⟨some "c1", JSNum.fin (25 / 2), some "pending"⟩
    "inv-9" "2026-10-11" DbOutcome.ok ⟨"c1", 25 / 2, InvoiceStatus.pending⟩
    (by simp [lenientParse, checkCustomerId, checkAmountLenient, checkStatusWith])
  have h25 : ((25 : ℚ) / 2) * 100 = 1250 := by norm_num
  simpa [h25] using h.1

/-- C2 counterexample: the claim says a database failure is never
propagated by any of the three persistence operations, citing the
strict `createInvoice` among them. But the strict `createInvoice` has
no try/catch: on a database failure at this valid concrete input it
ends by propagating the database exception to the caller. -/
theorem c2_counterexample :
    (createInvoiceStrict ⟨some "c1", JSNum.fin 15, some "pending"⟩
        "2026-10-11" DbOutcome.fail).2 = CallResult.threw JsError.dbError ∧
    ((CallResult.threw JsError.dbError : CallResult Unit)).isThrow = true := by
  constructor
  · simp [createInvoiceStrict, strictParse, checkCustomerIdStrict,
      checkAmountStrict, checkStatusWith]
  · rfl

/-- C2 (amended): the lenient operations (`createInvoice`,
`updateInvoice`, `deleteInvoice`) never propagate an exception: a
database failure is caught and logged with the operation's message.
The strict legacy `createInvoice` is the exception: it has no
try/catch, so its insert failure propagates (see the counterexample). -/
theorem c2_lenient_swallows_db_errors (f : RawForm) (uid did today : String)
    (db : DbOutcome) :
    (createInvoice f today db).2.isThrow = false ∧
    (updateInvoice uid f db).2.isThrow = false ∧
    (deleteInvoice did db).2.isThrow = false ∧
    Event.logError "Database Error: Failed to Delete Invoice."
        ∈ (deleteInvoice did DbOutcome.fail).1 ∧
    (∀ v : ValidatedInvoice, lenientParse f = .ok v →
      Event.logError "Database Error: Failed to Create Invoice."
          ∈ (createInvoice f today DbOutcome.fail).1 ∧
      Event.logError "Database Error: Failed to Update Invoice."
          ∈ (updateInvoice uid f DbOutcome.fail).1) := by
  refine ⟨?_, ?_, ?_, ?_, ?_⟩
  · cases hp : lenientParse f <;> cases db <;>
      simp [createInvoice, hp, CallResult.isThrow]
  · cases hp : lenientParse f <;> cases db <;>
      simp [updateInvoice, hp, CallResult.isThrow]
  · cases db <;> simp [deleteInvoice, CallResult.isThrow]
  · simp [deleteInvoice]
  · intro v hv
    constructor <;> simp [createInvoice, updateInvoice, hv]

/-- C2 witness: at a concrete valid form with a failing database, both
lenient mutating operations log their database-error message. -/
theorem c2_witness :
    Event.logError "Database Error: Failed to Create Invoice."
      ∈ (createInvoice ⟨some "c1", JSNum.fin 15, some "pending"⟩
          "2026-10-11" DbOutcome.fail).1 ∧
    Event.logError "Database Error: Failed to Update Invoice."
      ∈ (updateInvoice "inv-9" ⟨some "c1", JSNum.fin 15, some "pending"⟩
          DbOutcome.fail).1 :=
  (c2_lenient_swallows_db_errors ⟨some "c1", JSNum.fin 15, some "pending"⟩
      "inv-9" "inv-9" "2026-10-11" DbOutcome.fail).2.2.2.2
    ⟨"c1", 15, InvoiceStatus.pending⟩
    (by simp [lenientParse, checkCustomerId, checkAmountLenient, checkStatusWith])

/-- C3: for a form whose amount is non-numeric (NaN after coercion) or
coerces to a number ≤ 0, both lenient operations return (without
throwing) a structured result whose error set is non-empty on the
amount field, with the message "Missing Fields. Failed to Create
Invoice." (resp. "... Update Invoice."), and no database statement is
attempted: the only event of `createInvoice` is its debug log, and
`updateInvoice` performs no event at all. -/
theorem c3_invalid_amount_reported (f : RawForm) (uid today : String)
    (db : DbOutcome)
    (h : f.amount = JSNum.nan ∨ ∃ q : ℚ, f.amount = JSNum.fin q ∧ q ≤ 0) :
    ∃ e : FieldErrors, e.amount ≠ [] ∧ lenientParse f = .error e ∧
      createInvoice f today db =
        ([Event.logDebug "validatedFields: "],
         .returned ⟨some e, some "Missing Fields. Failed to Create Invoice."⟩) ∧
      updateInvoice uid f db =
        ([], .returned ⟨some e, some "Missing Fields. Failed to Update Invoice."⟩) ∧
      (∀ ev ∈ (createInvoice f today db).1, ev.isDbStatement = false) ∧
      (∀ ev ∈ (updateInvoice uid f db).1, ev.isDbStatement = false) := by
  have hmsg : ∃ msgs : List String, msgs ≠ [] ∧
      checkAmountLenient f.amount = .error msgs := by
    rcases h with hnan | ⟨q, hq, hle⟩
    · exact ⟨[amountNanMsg], by simp, by simp [checkAmountLenient, hnan]⟩
    · exact ⟨[amountGtMsg], by simp,
        by simp [checkAmountLenient, hq, not_lt.mpr hle]⟩
  obtain ⟨msgs, hne, hmsg⟩ := hmsg
  have hp := lenientParse_error_of_amount hmsg
  refine ⟨_, by simpa using hne, hp, ?_, ?_, ?_, ?_⟩
  · simp [createInvoice, hp]
  · simp [updateInvoice, hp]
  · simp [createInvoice, hp, Event.isDbStatement]
  · simp [updateInvoice, hp]

/-- C3 witness: the form (customer c1, amount coercing to 0, status
pending) is rejected by both operations with the amount error and no
database statement. -/
theorem c3_witness :
    ∃ e : FieldErrors, e.amount ≠ [] ∧
      lenientParse ⟨some "c1", JSNum.fin 0, some "pending"⟩ = .error e ∧
      createInvoice ⟨some "c1", JSNum.fin 0, some "pending"⟩ "2026-10-11" DbOutcome.ok =
        ([Event.logDebug "validatedFields: "],
         .returned ⟨some e, some "Missing Fields. Failed to Create Invoice."⟩) ∧
      updateInvoice "inv-9" ⟨some "c1", JSNum.fin 0, some "pending"⟩ DbOutcome.ok =
        ([], .returned ⟨some e, some "Missing Fields. Failed to Update Invoice."⟩) ∧
      (∀ ev ∈ (createInvoice ⟨some "c1", JSNum.fin 0, some "pending"⟩
          "2026-10-11" DbOutcome.ok).1, ev.isDbStatement = false) ∧
      (∀ ev ∈ (updateInvoice "inv-9" ⟨some "c1", JSNum.fin 0, some "pending"⟩
          DbOutcome.ok).1, ev.isDbStatement = false) :=
  c3_invalid_amount_reported ⟨some "c1", JSNum.fin 0, some "pending"⟩
    "inv-9" "2026-10-11" DbOutcome.ok (Or.inr ⟨0, rfl, le_refl 0⟩)

/-- C4: once validation succeeds, `createInvoice` and `updateInvoice`
invalidate the cache for "/dashboard/invoices" as their final event and
then redirect to that same path, whether the database statement
succeeded or threw. -/
theorem c4_always_revalidate_and_redirect (f : RawForm) (uid today : String)
    (db : DbOutcome) (v : ValidatedInvoice) (h : lenientParse f = .ok v) :
    (createInvoice f today db).1.getLast? = some (Event.revalidate invoicesPath) ∧
    (createInvoice f today db).2 = CallResult.redirected invoicesPath ∧
    (updateInvoice uid f db).1.getLast? = some (Event.revalidate invoicesPath) ∧
    (updateInvoice uid f db).2 = CallResult.redirected invoicesPath := by
  cases db <;> simp [createInvoice, updateInvoice, h]

/-- C4 witness: at a concrete valid form and a failing database, both
operations still end with the invalidation event and the redirect. -/
theorem c4_witness :
    (createInvoice ⟨some "c1", JSNum.fin 15, some "pending"⟩
        "2026-10-11" DbOutcome.fail).1.getLast? =
      some (Event.revalidate invoicesPath) ∧
    (createInvoice ⟨some "c1", JSNum.fin 15, some "pending"⟩
        "2026-10-11" DbOutcome.fail).2 = CallResult.redirected invoicesPath ∧
    (updateInvoice "inv-9" ⟨some "c1", JSNum.fin 15, some "pending"⟩
        DbOutcome.fail).1.getLast? = some (Event.revalidate invoicesPath) ∧
    (updateInvoice "inv-9" ⟨some "c1", JSNum.fin 15, some "pending"⟩
        DbOutcome.fail).2 = CallResult.redirected invoicesPath :=
  c4_always_revalidate_and_redirect ⟨some "c1", JSNum.fin 15, some "pending"⟩
    "inv-9" "2026-10-11" DbOutcome.fail ⟨"c1", 15, InvoiceStatus.pending⟩
    (by simp [lenientParse, checkCustomerId, checkAmountLenient, checkStatusWith])

/-- C5: `deleteInvoice` runs the invalidation only on the success path
inside the try block: on success its events are the delete statement
then the invalidation; if the statement throws, the error is caught and
logged and no invalidation event occurs — asymmetrically with the
lenient insert/update, which still invalidate on a database failure. -/
theorem c5_delete_invalidation_asymmetry (did : String) :
    deleteInvoice did DbOutcome.ok =
      ([Event.dbStatement (SqlStmt.deleteRow did), Event.revalidate invoicesPath],
       .returned ()) ∧
    deleteInvoice did DbOutcome.fail =
      ([Event.dbStatement (SqlStmt.deleteRow did),
        Event.logError "Database Error: Failed to Delete Invoice."],
       .returned ()) ∧
    Event.revalidate invoicesPath ∉ (deleteInvoice did DbOutcome.fail).1 ∧
    (∀ (f : RawForm) (today : String) (v : ValidatedInvoice),
      lenientParse f = .ok v →
        Event.revalidate invoicesPath ∈ (createInvoice f today DbOutcome.fail).1 ∧
        ∀ uid : String,
          Event.revalidate invoicesPath ∈ (updateInvoice uid f DbOutcome.fail).1) := by
  refine ⟨by simp [deleteInvoice], by simp [deleteInvoice], by simp [deleteInvoice], ?_⟩
  intro f today v hv
  exact ⟨by simp [createInvoice, hv], fun uid => by simp [updateInvoice, hv]⟩

/-- C5 witness: concrete delete on a failing database logs and skips
invalidation, while a concrete valid create on a failing database still
invalidates. -/
theorem c5_witness :
    Event.revalidate invoicesPath ∉ (deleteInvoice "inv-9" DbOutcome.fail).1 ∧
    Event.revalidate invoicesPath
      ∈ (createInvoice ⟨some "c1", JSNum.fin 15, some "pending"⟩
          "2026-10-11" DbOutcome.fail).1 :=
  ⟨(c5_delete_invalidation_asymmetry "inv-9").2.2.1,
   ((c5_delete_invalidation_asymmetry "inv-9").2.2.2
      ⟨some "c1", JSNum.fin 15, some "pending"⟩ "2026-10-11"
      ⟨"c1", 15, InvoiceStatus.pending⟩
      (by simp [lenientParse, checkCustomerId, checkAmountLenient,
        checkStatusWith])).1⟩

/-- C6: the strict legacy `createInvoice` fails fatally on any form
input that its schema rejects: it propagates the validation exception
(a ZodError carrying the field errors) and produces no effect at all,
rather than returning a structured error result. -/
theorem c6_strict_validation_throws (f : RawForm) (today : String)
    (db : DbOutcome) (e : FieldErrors) (h : strictParse f = .error e) :
    createInvoiceStrict f today db = ([], .threw (JsError.zodError e)) := by
  simp [createInvoiceStrict, h]

/-- C6 witness: a form with a missing customerId makes the strict
`createInvoice` throw the validation exception. -/
theorem c6_witness :
    createInvoiceStrict ⟨none, JSNum.fin 15, some "pending"⟩
        "2026-10-11" DbOutcome.ok =
      ([], .threw (JsError.zodError ⟨[stringTypeDefaultMsg], [], []⟩)) :=
  c6_strict_validation_throws ⟨none, JSNum.fin 15, some "pending"⟩
    "2026-10-11" DbOutcome.ok ⟨[stringTypeDefaultMsg], [], []⟩
    (by simp [strictParse, checkCustomerIdStrict, checkAmountStrict,
      checkStatusWith, errsOf])

/-- C7 counterexample: the claim says every row written has an integer
amountCents ≥ 1. The amount 0.001 passes validation (it is > 0), and
`createInvoice` writes amountCents = 0.1, which equals no integer at
all (in particular no integer ≥ 1) — the code multiplies by 100
without rounding and the validator does not force two-decimal input. -/
theorem c7_counterexample :
    lenientParse ⟨some "c1", JSNum.fin (1 / 1000), some "paid"⟩ =
      .ok ⟨"c1", 1 / 1000, InvoiceStatus.paid⟩ ∧
    Event.dbStatement (SqlStmt.insertRow "c1" (1 / 10) InvoiceStatus.paid "2026-10-11")
      ∈ (createInvoice ⟨some "c1", JSNum.fin (1 / 1000), some "paid"⟩
          "2026-10-11" DbOutcome.ok).1 ∧
    ¬ ∃ n : ℤ, ((1 : ℚ) / 10) = (n : ℚ) := by
  refine ⟨?_, ?_, ?_⟩
  · simp [lenientParse, checkCustomerId, checkAmountLenient, checkStatusWith]
  · simp [createInvoice, lenientParse, checkCustomerId, checkAmountLenient,
      checkStatusWith]
    norm_num
  · rintro ⟨n, hn⟩
    have h2 : (1 : ℚ) = 10 * (n : ℚ) := by
      field_simp at hn
      linarith
    have h3 : (1 : ℤ) = 10 * n := by exact_mod_cast h2
    omega

/-- C7 (amended): the amountCents value the pipeline writes is
amount × 100, which is always strictly positive, and it is an integer
(necessarily ≥ 1) exactly when amount × 100 has denominator 1, i.e.
when the validated amount is a whole number of cents. -/
theorem c7_amount_cents_positive (f : RawForm) (v : ValidatedInvoice)
    (h : lenientParse f = .ok v) :
    0 < v.amount * 100 ∧
    ((v.amount * 100).den = 1 ↔ ∃ n : ℤ, 1 ≤ n ∧ v.amount * 100 = (n : ℚ)) := by
  have hpos : 0 < v.amount := lenientParse_ok_amount_pos h
  have hq : 0 < v.amount * 100 := by positivity
  refine ⟨hq, ?_, ?_⟩
  · intro hd
    refine ⟨(v.amount * 100).num, ?_, ((Rat.den_eq_one_iff _).mp hd).symm⟩
    have := Rat.num_pos.mpr hq
    omega
  · rintro ⟨n, _, he⟩
    rw [he, Rat.den_intCast]

/-- C7 witness: at the validated amount 12.50 the written value 1250 is
positive, and the iff instantiates: denominator 1 and the integer 1250
witness each other. -/
theorem c7_witness :
    0 < ((⟨"c1", 25 / 2, InvoiceStatus.pending⟩ : ValidatedInvoice).amount * 100) ∧
    (((⟨"c1", 25 / 2, InvoiceStatus.pending⟩ : ValidatedInvoice).amount * 100).den = 1 ↔
      ∃ n : ℤ, 1 ≤ n ∧
        (⟨"c1", 25 / 2, InvoiceStatus.pending⟩ : ValidatedInvoice).amount * 100 = (n : ℚ)) :=
  c7_amount_cents_positive ⟨some "c1", JSNum.fin (25 / 2), some "pending"⟩
    ⟨"c1", 25 / 2, InvoiceStatus.pending⟩
    (by simp [lenientParse, checkCustomerId, checkAmountLenient, checkStatusWith])

/-- C8 counterexample: the claim says any status other than "pending"
or "paid" yields the message "Please select an invoice status.". But
that string is the schema's `invalid_type_error`, which zod applies
only to invalid-type issues (a non-string such as null); the string
"overdue" raises an invalid-enum-value issue carrying zod's default
message, a different string. -/
theorem c8_counterexample :
    lenientParse ⟨some "c1", JSNum.fin 15, some "overdue"⟩ =
      .error ⟨[], [], [enumValueDefaultMsg "overdue"]⟩ ∧
    enumValueDefaultMsg "overdue" ≠ statusTypeMsg := by
  constructor
  · simp [lenientParse, checkCustomerId, checkAmountLenient, checkStatusWith, errsOf]
  · simp [enumValueDefaultMsg, statusTypeMsg]

/-- C8 (amended): for a status field that is not a string (absent /
null) the lenient validator reports exactly "Please select an invoice
status."; for a string outside {pending, paid} it reports a status
error with zod's default invalid-enum-value message instead. -/
theorem c8_status_error_messages (f : RawForm)
    (hs : f.status = none ∨
      ∃ s : String, f.status = some s ∧ s ≠ "pending" ∧ s ≠ "paid") :
    ∃ e : FieldErrors, lenientParse f = .error e ∧
      e.status = (match f.status with
        | none => [statusTypeMsg]
        | some s => [enumValueDefaultMsg s]) := by
  have hmsg : checkStatusWith statusTypeMsg f.status =
      .error (match f.status with
        | none => [statusTypeMsg]
        | some s => [enumValueDefaultMsg s]) := by
    rcases hs with hnone | ⟨s, hsome, hp, hq⟩
    · simp [checkStatusWith, hnone]
    · simp [checkStatusWith, hsome, hp, hq]
  exact ⟨_, lenientParse_error_of_status hmsg, rfl⟩

/-- C8 witness: the status "overdue" produces the default
invalid-enum-value message on the status field. -/
theorem c8_witness :
    ∃ e : FieldErrors,
      lenientParse ⟨some "c1", JSNum.fin 15, some "overdue"⟩ = .error e ∧
      e.status = [enumValueDefaultMsg "overdue"] :=
  c8_status_error_messages ⟨some "c1", JSNum.fin 15, some "overdue"⟩
    (Or.inr ⟨"overdue", rfl, by simp, by simp⟩)

/-- C9: `deleteInvoice` never invokes the navigation collaborator: for
every id, whether the delete statement succeeds or throws, the call
returns normally (with unit) and in particular never ends redirected,
unlike the post-validation create/update pipelines. -/
theorem c9_delete_never_redirects (did : String) (db : DbOutcome) :
    (deleteInvoice did db).2 = CallResult.returned () ∧
    ∀ p : String, (deleteInvoice did db).2 ≠ CallResult.redirected p := by
  cases db <;> simp [deleteInvoice]

/-- C10: an `updateInvoice` invocation that reaches the database issues
exactly one statement, the update whose SET clause carries only
customer_id, amount and status; applying that statement to any row
leaves the row's date column unchanged (and `updateInvoice` computes no
date value — its statement constructor has no date argument). -/
theorem c10_update_preserves_date (uid : String) (f : RawForm)
    (db : DbOutcome) (v : ValidatedInvoice) (h : lenientParse f = .ok v) :
    (updateInvoice uid f db).1.filter Event.isDbStatement =
      [Event.dbStatement (SqlStmt.updateRow uid v.customerId (v.amount * 100) v.status)] ∧
    ∀ row : InvoiceRow,
      (applyUpdateRow uid v.customerId (v.amount * 100) v.status row).date = row.date := by
  constructor
  · cases db <;>
      simp [updateInvoice, h, Event.isDbStatement, List.filter_cons]
  · intro row
    unfold applyUpdateRow
    split <;> rfl

/-- C10 witness: at a concrete valid form the single statement of
`updateInvoice` is the three-column update, and applying it to a
concrete row keeps the row's date. -/
theorem c10_witness :
    (updateInvoice "inv-9" ⟨some "c1", JSNum.fin 15, some "pending"⟩
        DbOutcome.ok).1.filter Event.isDbStatement =
      [Event.dbStatement
        (SqlStmt.updateRow "inv-9" "c1"
          ((⟨"c1", 15, InvoiceStatus.pending⟩ : ValidatedInvoice).amount * 100)
          InvoiceStatus.pending)] ∧
    ∀ row : InvoiceRow,
      (applyUpdateRow "inv-9" "c1"
        ((⟨"c1", 15, InvoiceStatus.pending⟩ : ValidatedInvoice).amount * 100)
        InvoiceStatus.pending row).date = row.date :=
  c10_update_preserves_date "inv-9" ⟨some "c1", JSNum.fin 15, some "pending"⟩
    DbOutcome.ok ⟨"c1", 15, InvoiceStatus.pending⟩
    (by simp [lenientParse, checkCustomerId, checkAmountLenient, checkStatusWith])
